import Mathlib

/-!
Verification of the dustlang AST-class generator
(`generate_ast_classes.py`): a shallow embedding of the Python `ast`
fragments the generator builds, the generator functions `new_node` and
`generate_visitor` themselves, and a small semantics for the generated
`__init__` and `accept` method bodies.
-/

namespace Dustlang

/-- Expression context marker (`ast.Load` / `ast.Store`). -/
inductive Ctx where
| load
| store
deriving DecidableEq

/-- The Python expression forms emitted by the generator:
`ast.Name`, `ast.Attribute`, `ast.Call` (with positional arguments,
`ast.Starred` splices and `ast.keyword` entries, a keyword with `arg=None`
being a `**` splice), modelled as `(Option String × Expr)` pairs. -/
inductive Expr where
| name : String → Ctx → Expr
| attr : Expr → String → Ctx → Expr
| call : Expr → List Expr → List (Option String × Expr) → Expr
| starred : Expr → Ctx → Expr

/-- One formal parameter (`ast.arg`): its name and optional annotation. -/
structure Arg where
  arg : String
  ann : Option Expr

/-- A function signature (`ast.arguments`). -/
structure Arguments where
  posonlyargs : List Arg
  args : List Arg
  vararg : Option Arg
  kwonlyargs : List Arg
  kw_defaults : List (Option Expr)
  kwarg : Option Arg
  defaults : List Expr

/-- The Python statement forms emitted by the generator:
`ast.AnnAssign`, `ast.Assign`, `ast.Return`, `ast.Pass`,
`ast.FunctionDef` (name, signature, body, decorators, return annotation),
`ast.ClassDef` (name, bases, keywords, body, decorators) and
`ast.ImportFrom`. -/
inductive Stmt where
| annAssign : Expr → Expr → Nat → Stmt
| assign : List Expr → Expr → Stmt
| ret : Expr → Stmt
| pass : Stmt
| functionDef : String → Arguments → List Stmt → List Expr → Option Expr → Stmt
| classDef : String → List Expr → List (Option String × Expr) → List Stmt → List Expr → Stmt
| importFrom : String → List String → Nat → Stmt

/-- An `ast.Module`: its statement body. -/
structure PyModule where
  body : List Stmt

/-- The generator's mutable state: the module being filled in and the
module-global `visitor_names` set, modelled as a duplicate-free list in
insertion order (Python set semantics; iteration order is unspecified
upstream, so theorems below only use it as a set). -/
structure GenState where
  module : PyModule
  visitor_names : List String

/-- The `ast.AnnAssign` field declaration emitted for one `(name, type)`
field pair at the top of a generated class body. -/
def fieldAnn (p : String × String) : Stmt :=
  Stmt.annAssign (Expr.name p.1 Ctx.store) (Expr.name p.2 Ctx.load) 1

/-- The signature of a generated `__init__`: `self` followed by the
declared fields in declared order, each annotated with its type name. -/
def initArgs (fields : List (String × String)) : Arguments :=
  ⟨[], ⟨"self", none⟩ :: fields.map (fun p => ⟨p.1, some (Expr.name p.2 Ctx.load)⟩),
   none, [], [], none, []⟩

/-- The body of a generated `__init__`: one `self.f = f` assignment per
declared field, in declared order, and nothing else. -/
def initBody (fields : List (String × String)) : List Stmt :=
  fields.map fun p =>
    Stmt.assign [Expr.attr (Expr.name "self" Ctx.store) p.1 Ctx.store]
      (Expr.name p.1 Ctx.load)

/-- The generated `__init__` method (`ast.FunctionDef`), as built by
`new_node` when `generate_init` is true. -/
def initDef (fields : List (String × String)) : Stmt :=
  Stmt.functionDef "__init__" (initArgs fields) (initBody fields) [] none

/-- The signature of a generated `accept`:
`(self, visitor: ASTVisitor, *args: Any, **kwargs: Any)`. -/
def acceptArgs : Arguments :=
  ⟨[], [⟨"self", none⟩, ⟨"visitor", some (Expr.name "ASTVisitor" Ctx.load)⟩],
   some ⟨"args", some (Expr.name "Any" Ctx.load)⟩, [], [],
   some ⟨"kwargs", some (Expr.name "Any" Ctx.load)⟩, []⟩

/-- The body of a generated `accept` for kind `name`:
`return visitor.visit_<name>(self, *args, **kwargs)`. -/
def acceptBody (name : String) : List Stmt :=
  [Stmt.ret (Expr.call
      (Expr.attr (Expr.name "visitor" Ctx.load) ("visit_" ++ name) Ctx.load)
      [Expr.name "self" Ctx.load, Expr.starred (Expr.name "args" Ctx.load) Ctx.load]
      [(none, Expr.name "kwargs" Ctx.load)])]

/-- The generated `accept` method: always the forwarding body; the
`abstract_visit` flag only controls the `abstractmethod` decorator. -/
def acceptDef (name : String) (abstract_visit : Bool) : Stmt :=
  Stmt.functionDef "accept" acceptArgs (acceptBody name)
    (if abstract_visit then [Expr.name "abstractmethod" Ctx.load] else [])
    (some (Expr.name "Any" Ctx.load))

/-- Python `set.add` on the insertion-ordered list model. -/
def insertName (l : List String) (n : String) : List String :=
  if n ∈ l then l else l ++ [n]

/-- The class body assembled by `new_node`: field annotations, then the
`__init__` when `generate_init`, then the `accept` when `generate_visit`;
a lone `pass` when all of those are absent. -/
def newNodeClassBody (name : String) (fields : List (String × String))
    (generate_init abstract_visit generate_visit : Bool) : List Stmt :=
  let body := fields.map fieldAnn
  let body := if generate_init then body ++ [initDef fields] else body
  let body := if generate_visit then body ++ [acceptDef name abstract_visit] else body
  if body.isEmpty then [Stmt.pass] else body

/-- The `ast.ClassDef` appended by `new_node`: named `name`, single base
`parent`, no class keywords, no decorators. -/
def newNodeClassDef (name : String) (fields : List (String × String))
    (parent : String) (generate_init abstract_visit generate_visit : Bool) : Stmt :=
  Stmt.classDef name [Expr.name parent Ctx.load] []
    (newNodeClassBody name fields generate_init abstract_visit generate_visit) []

/-- `new_node` from `generate_ast_classes.py`: adds `name` to
`visitor_names` when `generate_visit`, and appends the assembled class
definition to the module body. It performs no duplicate-name check and no
parent-existence check and cannot fail. -/
def new_node (st : GenState) (name : String) (fields : List (String × String))
    (parent : String) (generate_init abstract_visit generate_visit : Bool) : GenState :=
  ⟨⟨st.module.body ++
      [newNodeClassDef name fields parent generate_init abstract_visit generate_visit]⟩,
   if generate_visit then insertName st.visitor_names name else st.visitor_names⟩

/-- One abstract `visit_<cls>` method of the generated `ASTVisitor`:
signature `(self, node: AST, *args: Any, **kwargs: Any)`, body `pass`,
decorated `abstractmethod`. -/
def visitMethod (cls : String) : Stmt :=
  Stmt.functionDef ("visit_" ++ cls)
    ⟨[], [⟨"self", none⟩, ⟨"node", some (Expr.name "AST" Ctx.load)⟩],
     some ⟨"args", some (Expr.name "Any" Ctx.load)⟩, [], [],
     some ⟨"kwargs", some (Expr.name "Any" Ctx.load)⟩, []⟩
    [Stmt.pass] [Expr.name "abstractmethod" Ctx.load]
    (some (Expr.name "Any" Ctx.load))

/-- The `ASTVisitor` class definition: base `ABC`, one `visit_<cls>`
method per collected visitor name. -/
def visitorClassDef (names : List String) : Stmt :=
  Stmt.classDef "ASTVisitor" [Expr.name "ABC" Ctx.load] [] (names.map visitMethod) []

/-- `generate_visitor` from `generate_ast_classes.py`: appends the
`ASTVisitor` class built from the current `visitor_names`. -/
def generate_visitor (st : GenState) : GenState :=
  ⟨⟨st.module.body ++ [visitorClassDef st.visitor_names]⟩, st.visitor_names⟩

/-- The initial `file_module` of `generate_ast_classes.py`: its three
header statements. -/
def file_module_init : PyModule :=
  ⟨[Stmt.importFrom "__future__" ["annotations"] 0,
    Stmt.importFrom "abc" ["ABC", "abstractmethod"] 0,
    Stmt.importFrom "typing" ["Optional", "Any"] 0]⟩

/-- One registration request: the arguments of a `new_node` call. -/
structure Registration where
  name : String
  fields : List (String × String)
  parent : String
  generate_init : Bool
  abstract_visit : Bool
  generate_visit : Bool

/-- Perform one registration. -/
def applyReg (st : GenState) (r : Registration) : GenState :=
  new_node st r.name r.fields r.parent r.generate_init r.abstract_visit r.generate_visit

/-- Perform a sequence of registrations in order. -/
def runRegs (st : GenState) (regs : List Registration) : GenState :=
  regs.foldl applyReg st

/-- A derivation run from a fresh state: all registrations, then
`generate_visitor`. -/
def derivationRun (regs : List Registration) : GenState :=
  generate_visitor (runRegs ⟨⟨[]⟩, []⟩ regs)

/-- The registration sequence performed by `main` in
`generate_ast_classes.py`. -/
def mainRegs : List Registration :=
  [⟨"AST", [], "ABC", false, true, true⟩,
   ⟨"Module", [("body", "list[AST]")], "AST", true, false, true⟩,
   ⟨"Block", [("label", "Optional[str]"), ("body", "list[AST]")], "AST", true, false, true⟩,
   ⟨"If", [("label", "Optional[str]"), ("body", "list[AST]")], "AST", true, false, true⟩,
   ⟨"While", [("label", "Optional[str]"), ("body", "list[AST]")], "AST", true, false, true⟩,
   ⟨"Do", [("label", "Optional[str]"), ("body", "list[AST]")], "AST", true, false, true⟩]

/-- The state produced by `main`: the import header, the six node
registrations, then the visitor. -/
def mainRun : GenState :=
  generate_visitor (runRegs ⟨file_module_init, []⟩ mainRegs)

/-! ## Observers on the emitted module -/

/-- Whether a statement is a method named `accept`. -/
def stmtIsAccept : Stmt → Bool
| Stmt.functionDef n _ _ _ _ => n == "accept"
| _ => false

/-- Whether a statement is a method named `__init__`. -/
def stmtIsInit : Stmt → Bool
| Stmt.functionDef n _ _ _ _ => n == "__init__"
| _ => false

/-- Whether a statement is a class definition whose body contains an
`accept` method. -/
def hasAccept : Stmt → Bool
| Stmt.classDef _ _ _ body _ => body.any stmtIsAccept
| _ => false

/-- Whether a statement is a class definition whose body contains an
`__init__` method. -/
def hasInit : Stmt → Bool
| Stmt.classDef _ _ _ body _ => body.any stmtIsInit
| _ => false

/-- The name of a class definition, if the statement is one. -/
def className : Stmt → Option String
| Stmt.classDef n _ _ _ _ => some n
| _ => none

/-- All class-definition names in a statement list, in order. -/
def classNames (stmts : List Stmt) : List String :=
  stmts.filterMap className

/-- The names of the classes whose body contains an `accept` method. -/
def kindsWithAccept (stmts : List Stmt) : List String :=
  classNames (stmts.filter hasAccept)

/-- The names of the classes whose body contains an `__init__` method. -/
def kindsWithInit (stmts : List Stmt) : List String :=
  classNames (stmts.filter hasInit)

/-- The method names required by a class definition (its body's
`FunctionDef` names); the capability set of the visitor interface. -/
def capabilityNames : Stmt → List String
| Stmt.classDef _ _ _ body _ =>
    body.filterMap fun s =>
      match s with
      | Stmt.functionDef n _ _ _ _ => some n
      | _ => none
| _ => []

/-- The body of a function definition (empty list otherwise). -/
def fnBody : Stmt → List Stmt
| Stmt.functionDef _ _ b _ _ => b
| _ => []

/-- The base-class expressions of a class definition. -/
def classBases : Stmt → List Expr
| Stmt.classDef _ bs _ _ _ => bs
| _ => []

/-- The decorator list of a function definition. -/
def fnDecorators : Stmt → List Expr
| Stmt.functionDef _ _ _ d _ => d
| _ => []

/-- Whether a function body is a single `return <some call>` statement,
i.e. a forwarding implementation rather than an empty/abstract body. -/
def isForwardingBody : List Stmt → Bool
| [Stmt.ret (Expr.call _ _ _)] => true
| _ => false

/-- How many class definitions named `n` the statement list holds. -/
def countClassNamed (stmts : List Stmt) (n : String) : Nat :=
  (classNames stmts).count n

/-! ## A small semantics for the generated method bodies

The generated `accept` body is
`return visitor.visit_<K>(self, *args, **kwargs)` and the generated
`__init__` body is a sequence of `self.f = f` assignments. The
interpreter below gives these exact Python forms their standard meaning:
names are looked up in a call frame, `*`/`**` splices concatenate, a call
on an attribute of a visitor-like object invokes that object's capability
with the evaluated positional and keyword arguments, and attribute
assignment updates the instance's attribute map. -/

/-- A runtime entity bound to a name in a call frame: an ordinary value,
a visitor-like object (capabilities indexed by name, taking positional
and keyword arguments), the `*args` tuple, or the `**kwargs` dict. -/
inductive Entity (α : Type) where
| obj : α → Entity α
| vis : (String → List α → List (String × α) → α) → Entity α
| tup : List α → Entity α
| dict : List (String × α) → Entity α

/-- Evaluate one positional argument of a call: a plain name contributes
its single value, `*name` splices the bound tuple. -/
def evalCallArg {α : Type} (env : String → Option (Entity α)) : Expr → Option (List α)
| Expr.name x _ =>
    match env x with
    | some (Entity.obj v) => some [v]
    | _ => none
| Expr.starred (Expr.name x _) _ =>
    match env x with
    | some (Entity.tup xs) => some xs
    | _ => none
| _ => none

/-- Evaluate one keyword entry of a call: `k=name` contributes one pair,
`**name` splices the bound dict. -/
def evalKw {α : Type} (env : String → Option (Entity α)) :
    Option String × Expr → Option (List (String × α))
| (some k, Expr.name x _) =>
    match env x with
    | some (Entity.obj v) => some [(k, v)]
    | _ => none
| (none, Expr.name x _) =>
    match env x with
    | some (Entity.dict d) => some d
    | _ => none
| _ => none

/-- Concatenate a list of optional segments, failing if any fails. -/
def seqOptions {β : Type} : List (Option (List β)) → Option (List β)
| [] => some []
| none :: _ => none
| some xs :: rest => (seqOptions rest).map (fun ys => xs ++ ys)

/-- Run a generated `accept` body: a single
`return v.m(positional..., keyword...)` where `v` is bound to a
visitor-like object invokes its capability `m` on the evaluated
arguments. Any other shape is not a generated accept body. -/
def evalAcceptStmts {α : Type} (env : String → Option (Entity α)) : List Stmt → Option α
| [Stmt.ret (Expr.call (Expr.attr (Expr.name v _) m _) posArgs kws)] =>
    match env v with
    | some (Entity.vis f) =>
        match seqOptions (posArgs.map (evalCallArg env)),
              seqOptions (kws.map (evalKw env)) with
        | some pos, some kw => some (f m pos kw)
        | _, _ => none
    | _ => none
| _ => none

/-- The call frame of `node.accept(V, *args, **kwargs)`: `self` is the
node, `visitor` the visitor-like object, `args` the extra positional
tuple, `kwargs` the keyword dict. -/
def acceptEnv {α : Type} (f : String → List α → List (String × α) → α) (selfv : α)
    (args : List α) (kwargs : List (String × α)) : String → Option (Entity α) :=
  fun s =>
    if s = "self" then some (Entity.obj selfv)
    else if s = "visitor" then some (Entity.vis f)
    else if s = "args" then some (Entity.tup args)
    else if s = "kwargs" then some (Entity.dict kwargs)
    else none

/-- Update one attribute of an instance's attribute map. -/
def setAttr {α : Type} (attrs : String → Option α) (n : String) (v : α) :
    String → Option α :=
  fun s => if s = n then some v else attrs s

/-- Run a generated `__init__` body: a sequence of `self.a = x`
assignments updating the instance's attribute map; any other statement
shape is not a generated init body. -/
def execInit {α : Type} (env : String → Option α) :
    List Stmt → (String → Option α) → Option (String → Option α)
| [], attrs => some attrs
| Stmt.assign [Expr.attr (Expr.name "self" _) a _] (Expr.name x _) :: rest, attrs =>
    (match env x with
     | some v => execInit env rest (setAttr attrs a v)
     | none => none)
| _, _ => none

/-- First-match lookup in an association list (parameter binding). -/
def lookupFirst {α : Type} : List (String × α) → String → Option α
| [], _ => none
| (k, v) :: rest, s => if s = k then some v else lookupFirst rest s

/-- The call frame of `ClassName(v1, ..., vk)` inside `__init__`: each
declared field name bound positionally to the corresponding value. -/
def callEnv {α : Type} (fields : List (String × String)) (vals : List α) :
    String → Option α :=
  lookupFirst ((fields.map Prod.fst).zip vals)

/-! ## Helper lemmas -/

/-- Appending a final element never yields the empty list. -/
theorem append_singleton_isEmpty {β : Type} (l : List β) (a : β) :
    (l ++ [a]).isEmpty = false := by
  cases l <;> rfl

/-- The appended last element is a member of the `isEmpty` guard used by
`newNodeClassBody`. -/
theorem mem_if_isEmpty_append {β : Type} (d l : List β) (a : β) :
    a ∈ (if (l ++ [a]).isEmpty then d else l ++ [a]) := by
  simp [append_singleton_isEmpty]

/-- Membership transfers into the `isEmpty` guard used by
`newNodeClassBody`. -/
theorem mem_if_isEmpty {β : Type} (d l : List β) (a : β) (h : a ∈ l) :
    a ∈ (if l.isEmpty then d else l) := by
  cases l with
  | nil => cases h
  | cons x xs => exact h

/-- Membership in the `isEmpty` guard comes from the default or the
list. -/
theorem mem_if_isEmpty_cases {β : Type} (d l : List β) (a : β)
    (h : a ∈ (if l.isEmpty then d else l)) : a ∈ d ∨ a ∈ l := by
  cases l with
  | nil => exact Or.inl h
  | cons x xs => exact Or.inr h

/-- No generated `visit_<cls>` method is named `accept`. -/
theorem visit_name_ne_accept (cls : String) : ("visit_" ++ cls) ≠ "accept" := by
  intro h
  have hd : ("visit_" ++ cls).data.head? = ("accept" : String).data.head? :=
    congrArg (fun s => s.data.head?) h
  rw [String.data_append] at hd
  exact (by decide : (some (Char.ofNat 118) = some (Char.ofNat 97)) → False) hd

/-- The `visit_` naming convention is injective. -/
theorem visit_name_inj {a b : String} (h : "visit_" ++ a = "visit_" ++ b) : a = b := by
  have hd := congrArg String.data h
  rw [String.data_append, String.data_append] at hd
  exact String.ext (List.append_cancel_left hd)

/-- The visitor interface requires exactly one `visit_<n>` capability per
collected name. -/
theorem capabilityNames_visitorClassDef (names : List String) :
    capabilityNames (visitorClassDef names) = names.map (fun n => "visit_" ++ n) := by
  induction names with
  | nil => rfl
  | cons n ns ih =>
      show ("visit_" ++ n) :: capabilityNames (visitorClassDef ns) = _
      rw [ih]
      rfl

/-- When `generate_visit` is true, the generated class body contains the
`accept` method. -/
theorem acceptDef_mem_newNodeClassBody (name : String)
    (fields : List (String × String)) (gi av : Bool) :
    acceptDef name av ∈ newNodeClassBody name fields gi av true :=
  mem_if_isEmpty_append [Stmt.pass]
    (if gi then fields.map fieldAnn ++ [initDef fields] else fields.map fieldAnn)
    (acceptDef name av)

/-- When `generate_init` is true, the generated class body contains the
`__init__` method. -/
theorem initDef_mem_newNodeClassBody (name : String)
    (fields : List (String × String)) (av gv : Bool) :
    initDef fields ∈ newNodeClassBody name fields true av gv := by
  apply mem_if_isEmpty
  cases gv with
  | true =>
      exact List.mem_append_left _ (List.mem_append_right _ (List.mem_singleton_self _))
  | false =>
      exact List.mem_append_right _ (List.mem_singleton_self _)

/-- When `generate_visit` is false, no statement of the generated class
body is an `accept` method. -/
theorem newNodeClassBody_any_accept_false (name : String)
    (fields : List (String × String)) (gi av : Bool) :
    (newNodeClassBody name fields gi av false).any stmtIsAccept = false := by
  rw [List.any_eq_false]
  intro s hs
  have hs2 := mem_if_isEmpty_cases [Stmt.pass]
    (if gi then fields.map fieldAnn ++ [initDef fields] else fields.map fieldAnn) s hs
  rcases hs2 with hp | hb
  · rw [List.mem_singleton.mp hp]
    exact Bool.false_ne_true ∘ id
  · have hfa : ∀ t ∈ fields.map fieldAnn, stmtIsAccept t = false := by
      intro t ht
      obtain ⟨p, _, rfl⟩ := List.mem_map.mp ht
      rfl
    cases gi with
    | true =>
        rcases List.mem_append.mp hb with hm | hi
        · rw [hfa s hm]
          exact Bool.false_ne_true
        · rw [List.mem_singleton.mp hi]
          intro hcon
          exact Bool.false_ne_true hcon
    | false =>
        rw [hfa s hb]
        exact Bool.false_ne_true

/-- When `generate_visit` is true, the generated class body does contain
an `accept` method. -/
theorem newNodeClassBody_any_accept_true (name : String)
    (fields : List (String × String)) (gi av : Bool) :
    (newNodeClassBody name fields gi av true).any stmtIsAccept = true := by
  rw [List.any_eq_true]
  exact ⟨acceptDef name av, acceptDef_mem_newNodeClassBody name fields gi av, rfl⟩

/-- `kindsWithAccept` distributes over append. -/
theorem kindsWithAccept_append (l1 l2 : List Stmt) :
    kindsWithAccept (l1 ++ l2) = kindsWithAccept l1 ++ kindsWithAccept l2 := by
  unfold kindsWithAccept classNames
  rw [List.filter_append, List.filterMap_append]

/-- `kindsWithAccept` on one class definition. -/
theorem kindsWithAccept_singleton_classDef (n : String) (bs : List Expr)
    (ks : List (Option String × Expr)) (body : List Stmt) (ds : List Expr) :
    kindsWithAccept [Stmt.classDef n bs ks body ds] =
      if body.any stmtIsAccept then [n] else [] := by
  unfold kindsWithAccept
  rw [List.filter_singleton]
  have hb2 : hasAccept (Stmt.classDef n bs ks body ds) = body.any stmtIsAccept := rfl
  rw [hb2]
  cases hb : body.any stmtIsAccept <;> rfl

/-- A class generated by `new_node` contributes its name to
`kindsWithAccept` exactly when `generate_visit` was true. -/
theorem kindsWithAccept_newNodeClassDef (name : String)
    (fields : List (String × String)) (parent : String) (gi av gv : Bool) :
    kindsWithAccept [newNodeClassDef name fields parent gi av gv] =
      if gv then [name] else [] := by
  cases gv with
  | true =>
      rw [newNodeClassDef, kindsWithAccept_singleton_classDef,
        newNodeClassBody_any_accept_true]
  | false =>
      rw [newNodeClassDef, kindsWithAccept_singleton_classDef,
        newNodeClassBody_any_accept_false]

/-- The visitor class definition contributes nothing to
`kindsWithAccept`: none of its methods is named `accept`. -/
theorem kindsWithAccept_visitorClassDef (names : List String) :
    kindsWithAccept [visitorClassDef names] = [] := by
  rw [visitorClassDef, kindsWithAccept_singleton_classDef]
  have hall : (names.map visitMethod).any stmtIsAccept = false := by
    rw [List.any_eq_false]
    intro s hs
    obtain ⟨c, _, rfl⟩ := List.mem_map.mp hs
    show ¬ ((("visit_" ++ c) == "accept") = true)
    intro hcon
    exact visit_name_ne_accept c (beq_iff_eq.mp hcon)
  rw [hall]
  rfl

/-- Membership in the Python-set `add` model. -/
theorem mem_insertName (l : List String) (n m : String) :
    m ∈ insertName l n ↔ m ∈ l ∨ m = n := by
  unfold insertName
  by_cases h : n ∈ l
  · rw [if_pos h]
    constructor
    · exact Or.inl
    · rintro (hm | rfl)
      · exact hm
      · exact h
  · rw [if_neg h]
    simp

/-- The names registered with `generate_visit=true`, in order. -/
def dispatchNames (regs : List Registration) : List String :=
  (regs.filter (fun r => r.generate_visit)).map (fun r => r.name)

/-- `dispatchNames` on a cons. -/
theorem dispatchNames_cons (r : Registration) (rs : List Registration) :
    dispatchNames (r :: rs) =
      if r.generate_visit then r.name :: dispatchNames rs else dispatchNames rs := by
  cases hg : r.generate_visit <;> simp [dispatchNames, List.filter_cons, hg]

/-- Running registrations appends one class per registration; the names
collected by `kindsWithAccept` grow by exactly the dispatch-enabled
names. -/
theorem kindsWithAccept_runRegs (regs : List Registration) (st : GenState) :
    kindsWithAccept (runRegs st regs).module.body =
      kindsWithAccept st.module.body ++ dispatchNames regs := by
  induction regs generalizing st with
  | nil => simp [runRegs, dispatchNames]
  | cons r rs ih =>
      show kindsWithAccept (runRegs (applyReg st r) rs).module.body = _
      rw [ih (applyReg st r)]
      show kindsWithAccept (st.module.body ++
          [newNodeClassDef r.name r.fields r.parent
            r.generate_init r.abstract_visit r.generate_visit]) ++ dispatchNames rs = _
      rw [kindsWithAccept_append, kindsWithAccept_newNodeClassDef, dispatchNames_cons]
      cases hg : r.generate_visit <;> simp

/-- The `visitor_names` collected by a run: the initial set plus every
dispatch-enabled registered name. -/
theorem mem_runRegs_visitor_names (regs : List Registration) (st : GenState)
    (n : String) :
    n ∈ (runRegs st regs).visitor_names ↔
      n ∈ st.visitor_names ∨ n ∈ dispatchNames regs := by
  induction regs generalizing st with
  | nil => simp [runRegs, dispatchNames]
  | cons r rs ih =>
      show n ∈ (runRegs (applyReg st r) rs).visitor_names ↔ _
      rw [ih (applyReg st r), dispatchNames_cons]
      show n ∈ (if r.generate_visit then insertName st.visitor_names r.name
          else st.visitor_names) ∨ _ ↔ _
      cases hg : r.generate_visit
      · simp
      · rw [if_pos rfl, mem_insertName]
        constructor
        · rintro (⟨hm | rfl⟩ | hr)
          · exact Or.inl hm
          · exact Or.inr (List.mem_cons_self _ _)
          · exact Or.inr (List.mem_cons_of_mem _ hr)
        · rintro (hm | hr)
          · exact Or.inl (Or.inl hm)
          · rcases List.mem_cons.mp hr with rfl | hr2
            · exact Or.inl (Or.inr rfl)
            · exact Or.inr hr2

/-- Running the generated `accept` body forwards to the visitor's
`visit_<name>` capability with the node prepended to the unchanged
positional arguments and the unchanged keyword arguments. -/
theorem evalAcceptStmts_acceptBody {α : Type}
    (f : String → List α → List (String × α) → α) (selfv : α)
    (args : List α) (kwargs : List (String × α)) (name : String) :
    evalAcceptStmts (acceptEnv f selfv args kwargs) (acceptBody name) =
      some (f ("visit_" ++ name) (selfv :: args) kwargs) := by
  simp [evalAcceptStmts, acceptBody, acceptEnv, evalCallArg, evalKw, seqOptions]

/-! ## Claim theorems -/

/-- Claim C10: every `new_node` call appends exactly one class
definition to the supplied module's body and leaves every pre-existing
entry unchanged, for all flag values; `generate_visitor` likewise
appends exactly one class definition (the visitor) and leaves all prior
entries unchanged. -/
theorem C10_frame_effect :
    (∀ (st : GenState) (name : String) (fields : List (String × String))
        (parent : String) (gi av gv : Bool),
        (new_node st name fields parent gi av gv).module.body =
          st.module.body ++ [newNodeClassDef name fields parent gi av gv] ∧
        (className (newNodeClassDef name fields parent gi av gv)).isSome = true ∧
        ∀ i, i < st.module.body.length →
          (new_node st name fields parent gi av gv).module.body.get? i =
            st.module.body.get? i) ∧
    (∀ st : GenState,
        (generate_visitor st).module.body =
          st.module.body ++ [visitorClassDef st.visitor_names] ∧
        (className (visitorClassDef st.visitor_names)).isSome = true ∧
        ∀ i, i < st.module.body.length →
          (generate_visitor st).module.body.get? i = st.module.body.get? i) := by
  constructor
  · intro st name fields parent gi av gv
    exact ⟨rfl, rfl, fun i hi => List.get?_append hi⟩
  · intro st
    exact ⟨rfl, rfl, fun i hi => List.get?_append hi⟩

/-- Witness for the frame property at a concrete state and index. -/
theorem C10_frame_effect_witness :
    (new_node ⟨file_module_init, []⟩ "AST" [] "ABC" false true true).module.body.get? 0 =
      file_module_init.body.get? 0 ∧
    (generate_visitor ⟨file_module_init, []⟩).module.body.get? 2 =
      file_module_init.body.get? 2 :=
  ⟨(C10_frame_effect.1 ⟨file_module_init, []⟩ "AST" [] "ABC" false true true).2.2 0
      (by decide),
   (C10_frame_effect.2 ⟨file_module_init, []⟩).2.2 2 (by decide)⟩

/-- Claim C6: a declaration registered with `generate_visit=false`
leaves `visitor_names` unchanged — so it contributes no `visit_`
capability to the generated visitor interface — and its generated class
contains no `accept` method. -/
theorem C6_optout_respected (st : GenState) (name : String)
    (fields : List (String × String)) (parent : String) (gi av : Bool) :
    (new_node st name fields parent gi av false).visitor_names = st.visitor_names ∧
    hasAccept (newNodeClassDef name fields parent gi av false) = false ∧
    capabilityNames (visitorClassDef
        (new_node st name fields parent gi av false).visitor_names) =
      capabilityNames (visitorClassDef st.visitor_names) := by
  refine ⟨rfl, ?_, rfl⟩
  show (newNodeClassBody name fields gi av false).any stmtIsAccept = false
  exact newNodeClassBody_any_accept_false name fields gi av

/-- Claim C7 counterexample: the `accept` generated for the root
(abstract) registration carries the `abstractmethod` decorator, yet its
body is the forwarding `return visitor.visit_AST(self, *args, **kwargs)`
— not an empty body — refuting the claim that the root's dispatch method
is generated with no default behavior / no forwarding body. -/
theorem C7_counterexample :
    fnDecorators (acceptDef "AST" true) = [Expr.name "abstractmethod" Ctx.load] ∧
    isForwardingBody (fnBody (acceptDef "AST" true)) = true ∧
    fnBody (acceptDef "AST" true) ≠ [Stmt.pass] ∧
    mainRun.module.body.get? 3 = some (newNodeClassDef "AST" [] "ABC" false true true) := by
  refine ⟨rfl, rfl, ?_, rfl⟩
  intro h
  exact Stmt.noConfusion (List.cons.inj h).1

/-- Claim C7 amended: the root's dispatch method is emitted with the
`abstractmethod` decorator, but it still carries the same forwarding
body as every concrete node — `return visitor.visit_<name>(self, *args,
**kwargs)` — rather than no implementation. -/
theorem C7_root_dispatch_abstract_but_forwarding (name : String)
    (fields : List (String × String)) (gi : Bool) :
    acceptDef name true ∈ newNodeClassBody name fields gi true true ∧
    fnDecorators (acceptDef name true) = [Expr.name "abstractmethod" Ctx.load] ∧
    fnBody (acceptDef name true) = acceptBody name ∧
    (∀ (α : Type) (f : String → List α → List (String × α) → α) (selfv : α)
        (args : List α) (kwargs : List (String × α)),
        evalAcceptStmts (acceptEnv f selfv args kwargs) (acceptBody name) =
          some (f ("visit_" ++ name) (selfv :: args) kwargs)) :=
  ⟨acceptDef_mem_newNodeClassBody name fields gi true, rfl, rfl,
   fun _ f selfv args kwargs => evalAcceptStmts_acceptBody f selfv args kwargs name⟩

/-- Claim C2: for every node kind generated with `generate_visit=true`,
the generated class contains the `accept` method, and running its body
with any visitor-like object, node, positional and keyword arguments
invokes exactly the visitor's `visit_<K>` capability with the node
prepended to the unchanged positional arguments and the unchanged
keyword arguments, returning its result. -/
theorem C2_dispatch_forwarding (st : GenState) (name : String)
    (fields : List (String × String)) (parent : String) (gi av : Bool)
    (α : Type) (f : String → List α → List (String × α) → α) (selfv : α)
    (args : List α) (kwargs : List (String × α)) :
    (new_node st name fields parent gi av true).module.body =
      st.module.body ++ [Stmt.classDef name [Expr.name parent Ctx.load] []
        (newNodeClassBody name fields gi av true) []] ∧
    acceptDef name av ∈ newNodeClassBody name fields gi av true ∧
    fnBody (acceptDef name av) = acceptBody name ∧
    evalAcceptStmts (acceptEnv f selfv args kwargs) (acceptBody name) =
      some (f ("visit_" ++ name) (selfv :: args) kwargs) :=
  ⟨rfl, acceptDef_mem_newNodeClassBody name fields gi av, rfl,
   evalAcceptStmts_acceptBody f selfv args kwargs name⟩

/-- The state after registering the root kind "AST". -/
def dupState1 : GenState :=
  new_node ⟨file_module_init, []⟩ "AST" [] "ABC" false true true

/-- The state after registering the name "AST" a second time. -/
def dupState2 : GenState :=
  new_node dupState1 "AST" [] "ABC" false true true

/-- Claim C4 counterexample: with "AST" already registered, registering
"AST" a second time does not fail and does not leave the declaration
count unchanged: the duplicate class definition is appended and the
module then holds two class definitions named "AST". -/
theorem C4_counterexample :
    "AST" ∈ classNames dupState1.module.body ∧
    dupState2.module.body.length = dupState1.module.body.length + 1 ∧
    countClassNamed dupState2.module.body "AST" = 2 :=
  ⟨by decide, rfl, by decide⟩

/-- Claim C4 amended: `new_node` performs no duplicate-name check.
Registering a second declaration with a name already present does not
fail: the duplicate class definition is appended, the declaration count
grows by one, and the number of class definitions carrying that name
grows by one. -/
theorem C4_duplicate_registration_appends (st : GenState) (name : String)
    (fields : List (String × String)) (parent : String) (gi av gv : Bool)
    (hdup : name ∈ classNames st.module.body) :
    (new_node st name fields parent gi av gv).module.body.length =
      st.module.body.length + 1 ∧
    countClassNamed (new_node st name fields parent gi av gv).module.body name =
      countClassNamed st.module.body name + 1 := by
  constructor
  · show (st.module.body ++
        [newNodeClassDef name fields parent gi av gv]).length = _
    rw [List.length_append]
    rfl
  · unfold countClassNamed classNames
    show ((st.module.body ++
        [newNodeClassDef name fields parent gi av gv]).filterMap className).count name = _
    rw [List.filterMap_append, List.count_append,
      show List.filterMap className [newNodeClassDef name fields parent gi av gv] =
        [name] from rfl,
      List.count_singleton_self]

/-- Witness: the duplicate "AST" registration on `dupState1`. -/
theorem C4_duplicate_registration_appends_witness :
    dupState2.module.body.length = dupState1.module.body.length + 1 ∧
    countClassNamed dupState2.module.body "AST" =
      countClassNamed dupState1.module.body "AST" + 1 :=
  C4_duplicate_registration_appends dupState1 "AST" [] "ABC" false true true (by decide)

/-- The state after registering "Module" with (unregistered) parent
"AST" on a fresh state. -/
def orphanState : GenState :=
  new_node ⟨⟨[]⟩, []⟩ "Module" [("body", "list[AST]")] "AST" true false true

/-- Claim C5 counterexample: registering "Module" with parent "AST" on a
fresh state, where no "AST" declaration exists, does not fail: the call
completes and the declaration is added — the module body grows from zero
to one class definition, named "Module", with base "AST". -/
theorem C5_counterexample :
    "AST" ∉ classNames (GenState.mk ⟨[]⟩ []).module.body ∧
    orphanState.module.body.length = 1 ∧
    classNames orphanState.module.body = ["Module"] ∧
    classBases (newNodeClassDef "Module" [("body", "list[AST]")] "AST" true false true) =
      [Expr.name "AST" Ctx.load] :=
  ⟨by decide, rfl, rfl, rfl⟩

/-- Claim C5 amended: `new_node` performs no parent-existence check.
Registering a declaration whose parent has not been registered does not
fail: the class definition is appended, with the unknown parent name as
its base. -/
theorem C5_unknown_parent_appends (st : GenState) (name : String)
    (fields : List (String × String)) (parent : String) (gi av gv : Bool)
    (hp : parent ∉ classNames st.module.body) :
    (new_node st name fields parent gi av gv).module.body =
      st.module.body ++ [newNodeClassDef name fields parent gi av gv] ∧
    classBases (newNodeClassDef name fields parent gi av gv) =
      [Expr.name parent Ctx.load] :=
  ⟨rfl, rfl⟩

/-- Witness: the "Module"-before-"AST" registration. -/
theorem C5_unknown_parent_appends_witness :
    orphanState.module.body =
      [] ++ [newNodeClassDef "Module" [("body", "list[AST]")] "AST" true false true] ∧
    classBases (newNodeClassDef "Module" [("body", "list[AST]")] "AST" true false true) =
      [Expr.name "AST" Ctx.load] :=
  C5_unknown_parent_appends ⟨⟨[]⟩, []⟩ "Module" [("body", "list[AST]")] "AST"
    true false true (by decide)

/-- Executing the generated `__init__` body assigns each declared field
name its bound value, leaving all other attributes as before. -/
theorem execInit_initBody {α : Type} (env : String → Option α)
    (fields : List (String × String)) (attrs : String → Option α) :
    (∀ p ∈ fields, (env p.1).isSome = true) →
    execInit env (initBody fields) attrs =
      some (fun s => if s ∈ fields.map Prod.fst then env s else attrs s) := by
  induction fields generalizing attrs with
  | nil =>
      intro _
      simp [initBody, execInit]
  | cons p rest ih =>
      intro henv
      obtain ⟨v, hv⟩ := Option.isSome_iff_exists.mp (henv p (List.mem_cons_self p rest))
      show execInit env
          (Stmt.assign [Expr.attr (Expr.name "self" Ctx.store) p.1 Ctx.store]
            (Expr.name p.1 Ctx.load) :: initBody rest) attrs = _
      rw [execInit, hv]
      show execInit env (initBody rest) (setAttr attrs p.1 v) = _
      rw [ih (setAttr attrs p.1 v) (fun q hq => henv q (List.mem_cons_of_mem p hq))]
      refine congrArg some (funext fun s => ?_)
      by_cases hmem : s ∈ rest.map Prod.fst
      · simp [hmem]
      · by_cases hsp : s = p.1
        · subst hsp
          simp [hmem, setAttr, hv]
        · simp [hmem, hsp, setAttr]

/-- First-match lookup succeeds on any key of the association list. -/
theorem lookupFirst_isSome {α : Type} (l : List (String × α)) (s : String)
    (h : s ∈ l.map Prod.fst) : (lookupFirst l s).isSome = true := by
  induction l with
  | nil => cases h
  | cons p rest ih =>
      show (if s = p.1 then some p.2 else lookupFirst rest s).isSome = true
      by_cases hs : s = p.1
      · rw [if_pos hs]
        rfl
      · rw [if_neg hs]
        rcases List.mem_cons.mp h with h1 | h2
        · exact absurd h1 hs
        · exact ih h2

/-- With duplicate-free keys, first-match lookup over a zip returns the
positionally corresponding value. -/
theorem lookupFirst_zip_get {α : Type} (names : List String) (vals : List α) :
    names.Nodup → ∀ (i : Nat) (h1 : i < names.length) (h2 : i < vals.length),
    lookupFirst (names.zip vals) (names.get ⟨i, h1⟩) = some (vals.get ⟨i, h2⟩) := by
  induction names generalizing vals with
  | nil =>
      intro _ i h1 _
      exact absurd h1 (Nat.not_lt_zero i)
  | cons n ns ih =>
      intro hnd i h1 h2
      cases vals with
      | nil => exact absurd h2 (Nat.not_lt_zero i)
      | cons v vs =>
          obtain ⟨hn, hns⟩ := List.nodup_cons.mp hnd
          cases i with
          | zero =>
              show (if n = n then some v else lookupFirst (ns.zip vs) n) = some v
              rw [if_pos rfl]
          | succ j =>
              have hj1 : j < ns.length := Nat.lt_of_succ_lt_succ h1
              have hj2 : j < vs.length := Nat.lt_of_succ_lt_succ h2
              have hne : ¬ (ns.get ⟨j, hj1⟩ = n) :=
                fun heq => hn (heq ▸ List.get_mem ns j hj1)
              show (if ns.get ⟨j, hj1⟩ = n then some v
                  else lookupFirst (ns.zip vs) (ns.get ⟨j, hj1⟩)) = some (vs.get ⟨j, hj2⟩)
              rw [if_neg hne]
              exact ih vs hns j hj1 hj2

/-- The constructor call frame binds every declared field name. -/
theorem callEnv_isSome {α : Type} (fields : List (String × String)) (vals : List α)
    (hlen : vals.length = fields.length) (p : String × String) (hp : p ∈ fields) :
    (callEnv fields vals p.1).isSome = true := by
  apply lookupFirst_isSome
  rw [List.map_fst_zip]
  · exact List.mem_map.mpr ⟨p, hp, rfl⟩
  · rw [List.length_map, hlen]

/-- Claim C3: for a declaration with `generate_init=true`, the generated
class gains a constructor accepting exactly `self` followed by the
declared fields in declared order; running its body — which is exactly
one `self.f = f` assignment per field — with values bound positionally
yields an instance whose attribute `ni` equals `vi` for every `i`. -/
theorem C3_field_fidelity (st : GenState) (name parent : String)
    (fields : List (String × String)) (av gv : Bool) (α : Type) (vals : List α)
    (hnodup : (fields.map Prod.fst).Nodup) (hlen : vals.length = fields.length) :
    (new_node st name fields parent true av gv).module.body =
      st.module.body ++ [newNodeClassDef name fields parent true av gv] ∧
    initDef fields ∈ newNodeClassBody name fields true av gv ∧
    (initArgs fields).args.map Arg.arg = "self" :: fields.map Prod.fst ∧
    ∃ final,
      execInit (callEnv fields vals) (initBody fields) (fun _ => none) = some final ∧
      ∀ (i : Nat) (h1 : i < fields.length) (h2 : i < vals.length),
        final (fields.get ⟨i, h1⟩).1 = some (vals.get ⟨i, h2⟩) := by
  refine ⟨rfl, initDef_mem_newNodeClassBody name fields av gv, ?_, ?_⟩
  · simp [initArgs, List.map_map, Function.comp]
  · refine ⟨fun s => if s ∈ fields.map Prod.fst then callEnv fields vals s else none,
      execInit_initBody (callEnv fields vals) fields (fun _ => none)
        (fun p hp => callEnv_isSome fields vals hlen p hp), ?_⟩
    intro i h1 h2
    have hmem : (fields.get ⟨i, h1⟩).1 ∈ fields.map Prod.fst :=
      List.mem_map.mpr ⟨fields.get ⟨i, h1⟩, List.get_mem fields i h1, rfl⟩
    show (if (fields.get ⟨i, h1⟩).1 ∈ fields.map Prod.fst
        then callEnv fields vals (fields.get ⟨i, h1⟩).1 else none) = some (vals.get ⟨i, h2⟩)
    rw [if_pos hmem]
    have hl : i < (fields.map Prod.fst).length := by
      rw [List.length_map]
      exact h1
    have hname : (fields.get ⟨i, h1⟩).1 = (fields.map Prod.fst).get ⟨i, hl⟩ := by
      simp [List.get_eq_getElem, List.getElem_map]
    rw [hname]
    exact lookupFirst_zip_get (fields.map Prod.fst) vals hnodup i hl h2

/-- Declared fields of the `Block` kind (also `If`, `While`, `Do`). -/
def blockFields : List (String × String) :=
  [("label", "Optional[str]"), ("body", "list[AST]")]

/-- Witness for field fidelity: the `Block` declaration with two field
values over `Nat`. -/
theorem C3_field_fidelity_witness :
    (new_node ⟨⟨[]⟩, []⟩ "Block" blockFields "AST" true false true).module.body =
      [] ++ [newNodeClassDef "Block" blockFields "AST" true false true] ∧
    initDef blockFields ∈ newNodeClassBody "Block" blockFields true false true ∧
    (initArgs blockFields).args.map Arg.arg = "self" :: blockFields.map Prod.fst ∧
    ∃ final,
      execInit (callEnv blockFields [(3 : Nat), 7]) (initBody blockFields)
        (fun _ => none) = some final ∧
      ∀ (i : Nat) (h1 : i < blockFields.length) (h2 : i < [(3 : Nat), 7].length),
        final (blockFields.get ⟨i, h1⟩).1 = some ([(3 : Nat), 7].get ⟨i, h2⟩) :=
  C3_field_fidelity ⟨⟨[]⟩, []⟩ "Block" "AST" blockFields false true Nat [3, 7]
    (by decide) (by decide)

/-- Claim C1: in any derivation run over declarations with pairwise
distinct names, the set of node kinds whose generated class contains an
`accept` method coincides exactly with the `visit_<name>` capability set
of the generated `ASTVisitor`; every kind registered with
`generate_visit=true` is in both, and no kind registered with
`generate_visit=false` is in either. -/
theorem C1_consistency (regs : List Registration)
    (hnodup : (regs.map (fun r => r.name)).Nodup) :
    (derivationRun regs).module.body =
      (runRegs ⟨⟨[]⟩, []⟩ regs).module.body ++
        [visitorClassDef (runRegs ⟨⟨[]⟩, []⟩ regs).visitor_names] ∧
    (∀ n : String, n ∈ kindsWithAccept (derivationRun regs).module.body ↔
      ("visit_" ++ n) ∈ capabilityNames
        (visitorClassDef (runRegs ⟨⟨[]⟩, []⟩ regs).visitor_names)) ∧
    (∀ r ∈ regs, r.generate_visit = true →
      r.name ∈ kindsWithAccept (derivationRun regs).module.body ∧
      ("visit_" ++ r.name) ∈ capabilityNames
        (visitorClassDef (runRegs ⟨⟨[]⟩, []⟩ regs).visitor_names)) ∧
    (∀ r ∈ regs, r.generate_visit = false →
      r.name ∉ kindsWithAccept (derivationRun regs).module.body ∧
      ("visit_" ++ r.name) ∉ capabilityNames
        (visitorClassDef (runRegs ⟨⟨[]⟩, []⟩ regs).visitor_names)) := by
  have hbody : kindsWithAccept (derivationRun regs).module.body = dispatchNames regs := by
    show kindsWithAccept ((runRegs ⟨⟨[]⟩, []⟩ regs).module.body ++
        [visitorClassDef (runRegs ⟨⟨[]⟩, []⟩ regs).visitor_names]) = _
    rw [kindsWithAccept_append, kindsWithAccept_visitorClassDef,
      kindsWithAccept_runRegs]
    simp
    rfl
  have hvn : ∀ n : String,
      n ∈ (runRegs ⟨⟨[]⟩, []⟩ regs).visitor_names ↔ n ∈ dispatchNames regs := by
    intro n
    rw [mem_runRegs_visitor_names]
    simp
  have hcaps : ∀ n : String, ("visit_" ++ n) ∈ capabilityNames
      (visitorClassDef (runRegs ⟨⟨[]⟩, []⟩ regs).visitor_names) ↔
        n ∈ dispatchNames regs := by
    intro n
    rw [capabilityNames_visitorClassDef]
    constructor
    · intro h
      obtain ⟨m, hm, he⟩ := List.mem_map.mp h
      rw [← visit_name_inj he]
      exact (hvn m).mp hm
    · intro h
      exact List.mem_map.mpr ⟨n, (hvn n).mpr h, rfl⟩
  refine ⟨rfl, ?_, ?_, ?_⟩
  · intro n
    rw [hbody, hcaps]
  · intro r hr hg
    have hd : r.name ∈ dispatchNames regs := by
      unfold dispatchNames
      exact List.mem_map.mpr ⟨r, List.mem_filter.mpr ⟨hr, hg⟩, rfl⟩
    constructor
    · rw [hbody]
      exact hd
    · exact (hcaps r.name).mpr hd
  · intro r hr hg
    have hd : r.name ∉ dispatchNames regs := by
      intro hmem
      obtain ⟨r2, hr2, hname⟩ := List.mem_map.mp hmem
      have hr2m := List.mem_filter.mp hr2
      have heq : r2 = r := List.inj_on_of_nodup_map hnodup hr2m.1 hr hname
      have hgv := hr2m.2
      rw [heq, hg] at hgv
      exact Bool.false_ne_true hgv
    constructor
    · rw [hbody]
      exact hd
    · exact fun hc => hd ((hcaps r.name).mp hc)

/-- Witness for the consistency property: the `main` registration
sequence, checked at the `Block` kind. -/
theorem C1_consistency_witness :
    (mainRegs.map (fun r => r.name)).Nodup ∧
    ("Block" ∈ kindsWithAccept (derivationRun mainRegs).module.body ↔
      ("visit_" ++ "Block") ∈ capabilityNames
        (visitorClassDef (runRegs ⟨⟨[]⟩, []⟩ mainRegs).visitor_names)) :=
  ⟨by decide, (C1_consistency mainRegs (by decide)).2.1 "Block"⟩

/-- Claim C9: `visitor_names` is global and monotone — `new_node` never
removes a name and adds the kind's name exactly when
`generate_visit=true`; `generate_visitor` leaves it unchanged and emits
one capability for every name it holds, so a visitor generated at any
point requires a capability for every name ever registered with
`generate_visit=true` since module load, including names from earlier
runs and names whose later re-registration opted out of dispatch. -/
theorem C9_visitor_names_global_monotone :
    (∀ (st : GenState) (name : String) (fields : List (String × String))
        (parent : String) (gi av gv : Bool),
        st.visitor_names ⊆ (new_node st name fields parent gi av gv).visitor_names) ∧
    (∀ (st : GenState) (name : String) (fields : List (String × String))
        (parent : String) (gi av : Bool),
        name ∈ (new_node st name fields parent gi av true).visitor_names) ∧
    (∀ st : GenState, (generate_visitor st).visitor_names = st.visitor_names) ∧
    (∀ (st : GenState) (regs : List Registration) (n : String),
        n ∈ st.visitor_names ∨ n ∈ dispatchNames regs →
        ("visit_" ++ n) ∈ capabilityNames
          (visitorClassDef (runRegs st regs).visitor_names)) ∧
    (∀ (st : GenState) (n : String) (fields : List (String × String))
        (parent : String) (gi av : Bool),
        n ∈ st.visitor_names →
        n ∈ (new_node st n fields parent gi av false).visitor_names) := by
  refine ⟨?_, ?_, fun _ => rfl, ?_, ?_⟩
  · intro st name fields parent gi av gv x hx
    cases gv with
    | false => exact hx
    | true =>
        show x ∈ insertName st.visitor_names name
        rw [mem_insertName]
        exact Or.inl hx
  · intro st name fields parent gi av
    show name ∈ insertName st.visitor_names name
    rw [mem_insertName]
    exact Or.inr rfl
  · intro st regs n hn
    rw [capabilityNames_visitorClassDef]
    refine List.mem_map.mpr ⟨n, ?_, rfl⟩
    rw [mem_runRegs_visitor_names]
    exact hn
  · intro st n fields parent gi av hn
    exact hn

/-- Witness for the global monotone collection: a name from an earlier
run survives a later opted-out re-registration and still yields a
capability. -/
theorem C9_visitor_names_global_monotone_witness :
    "AST" ∈ (new_node ⟨⟨[]⟩, ["AST"]⟩ "AST" [] "ABC" true false false).visitor_names ∧
    ("visit_" ++ "AST") ∈ capabilityNames
      (visitorClassDef (runRegs ⟨⟨[]⟩, ["AST"]⟩ []).visitor_names) :=
  ⟨C9_visitor_names_global_monotone.2.2.2.2 ⟨⟨[]⟩, ["AST"]⟩ "AST" [] "ABC" true false
      (by decide),
   C9_visitor_names_global_monotone.2.2.2.1 ⟨⟨[]⟩, ["AST"]⟩ [] "AST"
      (Or.inl (by decide))⟩

/-- A tiny Python value domain for the end-to-end scenario: `None` and
(possibly nested) lists. -/
inductive Value where
| vNone : Value
| vList : List Value → Value

/-- Claim C8: the `main` scenario registers root `AST` then `Module`,
`Block`, `If`, `While`, `Do`; it yields class definitions for all six
kinds plus the visitor, of which exactly the five concrete kinds carry
constructors; the visitor interface requires exactly the six
capabilities `visit_{AST, Module, Block, If, While, Do}`; constructing
`Block(label=None, body=[])` stores those two attribute values, and
dispatching a `Block` node with no extra arguments invokes the
visitor's `visit_Block` capability with exactly the node. -/
theorem C8_end_to_end :
    classNames mainRun.module.body =
      ["AST", "Module", "Block", "If", "While", "Do", "ASTVisitor"] ∧
    kindsWithInit mainRun.module.body = ["Module", "Block", "If", "While", "Do"] ∧
    (kindsWithInit mainRun.module.body).length = 5 ∧
    kindsWithAccept mainRun.module.body = ["AST", "Module", "Block", "If", "While", "Do"] ∧
    mainRun.visitor_names = ["AST", "Module", "Block", "If", "While", "Do"] ∧
    capabilityNames (visitorClassDef mainRun.visitor_names) =
      ["visit_AST", "visit_Module", "visit_Block", "visit_If", "visit_While", "visit_Do"] ∧
    mainRun.module.body.getLast? =
      some (visitorClassDef ["AST", "Module", "Block", "If", "While", "Do"]) ∧
    (∃ final,
      execInit (callEnv blockFields [Value.vNone, Value.vList []])
        (initBody blockFields) (fun _ => none) = some final ∧
      final "label" = some Value.vNone ∧
      final "body" = some (Value.vList []) ∧
      (∀ (α : Type) (f : String → List α → List (String × α) → α) (selfv : α),
        evalAcceptStmts (acceptEnv f selfv [] []) (acceptBody "Block") =
          some (f "visit_Block" [selfv] []))) := by
  refine ⟨rfl, rfl, rfl, rfl, rfl, rfl, rfl, ?_⟩
  refine ⟨_, rfl, rfl, rfl, fun α f selfv => ?_⟩
  exact evalAcceptStmts_acceptBody f selfv [] [] "Block"

end Dustlang
